import Mathlib

/-!
Verification of the event-stream translator in src/ai/llm_caller.py
(bolt-python-assistant-template).

The core of the repository is the async generator call_llm, which drives an
ADK runner turn and translates the raw ADK event stream into a two-channel
output protocol of status and content events.  We embed the per-event
translation loop (lines 86 to 143 of src/ai/llm_caller.py) as a pure state
machine, the session-id resolution and message plumbing (lines 61 to 92) as
pure functions, and the session-creation exception handling (lines 66 to 72)
as a function on Except values.
-/

namespace LlmCaller

/-- One part of an ADK event content: an optional text payload.
Python truthiness of part.text means the text is present and non-empty. -/
structure EventPart where
  text : Option String
deriving DecidableEq, Repr

/-- The content attached to an ADK event: an ordered list of parts.
A Python parts value of None and an empty list are both falsy, so both are
embedded as the empty list. -/
structure EventContent where
  parts : List EventPart
deriving DecidableEq, Repr

/-- One function-call descriptor carried by an ADK event. -/
structure FunctionCall where
  name : String
deriving DecidableEq, Repr

/-- The actions record of an ADK event; transfer_to_agent is an optional
agent name, truthy only when present and non-empty. -/
structure EventActions where
  transfer_to_agent : Option String
deriving DecidableEq, Repr

/-- A raw ADK execution event as probed by call_llm: an optional author,
optional content, the list returned by get_function_calls (empty when the
attribute is missing), and an optional actions record. -/
structure RawEvent where
  author : Option String
  content : Option EventContent
  functionCalls : List FunctionCall
  actions : Option EventActions
deriving DecidableEq, Repr

/-- The two-channel output protocol of call_llm: dictionaries with type
"status" or type "content", each carrying a text field. -/
inductive OutputEvent where
  | status (text : String)
  | content (text : String)
deriving DecidableEq, Repr

/-- Per-turn translator state of call_llm: the current_agent and
has_started_streaming_content locals (lines 87 to 88). -/
structure TState where
  currentAgent : Option String
  hasStartedStreamingContent : Bool
deriving DecidableEq, Repr

/-- Initial translator state: current_agent = None,
has_started_streaming_content = False. -/
def initState : TState :=
  { currentAgent := none, hasStartedStreamingContent := false }

/-- Python truthiness of an optional string: present and non-empty. -/
def optTruthy : Option String → Bool
  | none => false
  | some s => s ≠ ""

/-- Truthiness of part.text (line 141): present and non-empty. -/
def partHasText (p : EventPart) : Bool :=
  optTruthy p.text

/-- Embeds tool_name.replace(with underscore, with space) from line 120:
the pattern and replacement are single characters, so the replacement is a
character map. -/
def underscoreToSpace (s : String) : String :=
  String.mk (s.data.map (fun c => if c = '_' then ' ' else c))

/-- Character-list worker for the Python str.title method: an alphabetic
character is uppercased when the previous character was not alphabetic and
lowercased otherwise (ASCII fragment, which covers ADK tool names). -/
def pyTitleAux : Bool → List Char → List Char
  | _, [] => []
  | prevCased, c :: cs =>
    if c.isAlpha then
      (if prevCased then c.toLower else c.toUpper) :: pyTitleAux true cs
    else
      c :: pyTitleAux false cs

/-- Embeds the Python str.title method on ASCII strings. -/
def pyTitle (s : String) : String :=
  String.mk (pyTitleAux false s.data)

/-- The readable tool name of line 120:
tool_name.replace(underscore, space).title(). -/
def readableName (toolName : String) : String :=
  pyTitle (underscoreToSpace toolName)

/-- Content outputs of one event (lines 140 to 143): one content event per
part whose text is present and non-empty, in part order. -/
def partOutputs (parts : List EventPart) : List OutputEvent :=
  parts.filterMap (fun p =>
    match p.text with
    | some t => if t = "" then none else some (OutputEvent.content t)
    | none => none)

/-- Rule 1 (lines 100 to 107), output component: the agent-switch status,
emitted only when the author is truthy, differs from the user sentinel and
from current_agent, and content has not started streaming. -/
def rule1Out (st : TState) (e : RawEvent) : List OutputEvent :=
  match e.author with
  | some a =>
    if a ≠ "" ∧ a ≠ "user" ∧ some a ≠ st.currentAgent then
      if st.hasStartedStreamingContent = false then
        [OutputEvent.status (a ++ " is working...")]
      else []
    else []
  | none => []

/-- Rule 1 (lines 100 to 102), state component: the updated current_agent. -/
def rule1Agent (st : TState) (e : RawEvent) : Option String :=
  match e.author with
  | some a =>
    if a ≠ "" ∧ a ≠ "user" ∧ some a ≠ st.currentAgent then some a
    else st.currentAgent
  | none => st.currentAgent

/-- Rule 2 (lines 109 to 123): one tool status per function call, in call
order, only while content has not started streaming. -/
def rule2Out (st : TState) (e : RawEvent) : List OutputEvent :=
  if e.functionCalls ≠ [] ∧ st.hasStartedStreamingContent = false then
    e.functionCalls.map
      (fun fc => OutputEvent.status ("Using " ++ readableName fc.name ++ "..."))
  else []

/-- Rule 3 (lines 125 to 135): the hand-off status, emitted whenever actions
is present with a truthy transfer_to_agent, with no content-started guard. -/
def rule3Out (e : RawEvent) : List OutputEvent :=
  match e.actions with
  | some acts =>
    match acts.transfer_to_agent with
    | some target =>
      if target ≠ "" then [OutputEvent.status ("Consulting " ++ target ++ "...")]
      else []
    | none => []
  | none => []

/-- Rule 4 (lines 137 to 143), output component: content chunks, emitted when
content is present with a non-empty parts list and the author differs from
the user sentinel; no content-started guard. -/
def rule4Out (e : RawEvent) : List OutputEvent :=
  match e.content with
  | some c =>
    if c.parts ≠ [] ∧ e.author ≠ some "user" then partOutputs c.parts
    else []
  | none => []

/-- Processes one raw event exactly as one iteration of the loop in lines
91 to 143: rule 1 (agent switch), rule 2 (tool calls), rule 3 (hand-off),
rule 4 (content), returning the updated state and the yielded outputs in
yield order. -/
def processEvent (st : TState) (e : RawEvent) : TState × List OutputEvent :=
  let r1 : Option String × List OutputEvent :=
    match e.author with
    | some a =>
      if a ≠ "" ∧ a ≠ "user" ∧ some a ≠ st.currentAgent then
        (some a,
          if st.hasStartedStreamingContent = false then
            [OutputEvent.status (a ++ " is working...")]
          else [])
      else (st.currentAgent, [])
    | none => (st.currentAgent, [])
  let out2 : List OutputEvent :=
    if e.functionCalls ≠ [] ∧ st.hasStartedStreamingContent = false then
      e.functionCalls.map
        (fun fc => OutputEvent.status ("Using " ++ readableName fc.name ++ "..."))
    else []
  let out3 : List OutputEvent :=
    match e.actions with
    | some acts =>
      match acts.transfer_to_agent with
      | some target =>
        if target ≠ "" then
          [OutputEvent.status ("Consulting " ++ target ++ "...")]
        else []
      | none => []
    | none => []
  let r4 : Bool × List OutputEvent :=
    match e.content with
    | some c =>
      if c.parts ≠ [] ∧ e.author ≠ some "user" then
        (st.hasStartedStreamingContent || c.parts.any partHasText,
          partOutputs c.parts)
      else (st.hasStartedStreamingContent, [])
    | none => (st.hasStartedStreamingContent, [])
  ({ currentAgent := r1.1, hasStartedStreamingContent := r4.1 },
    r1.2 ++ out2 ++ out3 ++ r4.2)

/-- Runs the translation loop from a given state over a list of raw events,
concatenating the outputs in arrival order. -/
def runTranslate : TState → List RawEvent → List OutputEvent
  | _, [] => []
  | st, e :: es => (processEvent st e).2 ++ runTranslate (processEvent st e).1 es

/-- The full output stream of one call_llm turn over a raw event list. -/
def call_llm_outputs (events : List RawEvent) : List OutputEvent :=
  runTranslate initState events

/-- Which of the four translation rules produced an output. -/
inductive Origin where
  | agentSwitch
  | toolCall
  | handOff
  | contentRule
deriving DecidableEq, Repr

/-- The outputs of one loop iteration, each tagged with the rule that
yielded it; erasing the tags recovers the outputs of processEvent. -/
def taggedOut (st : TState) (e : RawEvent) : List (Origin × OutputEvent) :=
  (rule1Out st e).map (fun o => (Origin.agentSwitch, o))
    ++ (rule2Out st e).map (fun o => (Origin.toolCall, o))
    ++ (rule3Out e).map (fun o => (Origin.handOff, o))
    ++ (rule4Out e).map (fun o => (Origin.contentRule, o))

/-- The tagged translation run from a given state. -/
def runTaggedFrom : TState → List RawEvent → List (Origin × OutputEvent)
  | _, [] => []
  | st, e :: es => taggedOut st e ++ runTaggedFrom (processEvent st e).1 es

/-- The tagged output stream of one call_llm turn. -/
def call_llm_tagged (events : List RawEvent) : List (Origin × OutputEvent) :=
  runTaggedFrom initState events

/-- Whether an output event is a content event. -/
def isContentOut : OutputEvent → Bool
  | OutputEvent.content _ => true
  | OutputEvent.status _ => false

/-- A tagged output that did not come from rule 1 or rule 2. -/
def notRule12 (t : Origin × OutputEvent) : Prop :=
  t.1 ≠ Origin.agentSwitch ∧ t.1 ≠ Origin.toolCall

/-- The desired trace shape: walking the list with the content-started flag,
every element seen while the flag is true is exempt from rules 1 and 2. -/
def okTrace : Bool → List (Origin × OutputEvent) → Prop
  | _, [] => True
  | started, t :: ts =>
    (started = true → notRule12 t) ∧ okTrace (started || isContentOut t.2) ts

/-- A message of the platform thread history: a role and a content string. -/
structure ThreadMessage where
  role : String
  content : String
deriving DecidableEq, Repr

/-- The new_message value built in lines 82 to 84: a role and the list of
part texts. -/
structure ADKContent where
  role : String
  parts : List String
deriving DecidableEq, Repr

/-- Embeds lines 75 to 79: the last thread message when the list is
non-empty, else the synthetic user message with empty content. -/
def last_message (msgs : List ThreadMessage) : ThreadMessage :=
  match msgs.getLast? with
  | some m => m
  | none => { role := "user", content := "" }

/-- Embeds lines 82 to 84: the message forwarded to runner.run_async, with
role user and a single part holding the last message content. -/
def new_message (msgs : List ThreadMessage) : ADKContent :=
  { role := "user", parts := [(last_message msgs).content] }

/-- Embeds lines 62 to 63: the session id used for the turn, derived from
the user id when none is supplied. -/
def resolve_session_id (session_id : Option String) (user_id : String) : String :=
  match session_id with
  | none => "session_" ++ user_id
  | some s => s

/-- The identifier and message plumbing of one call_llm invocation: the
arguments passed to session_service.create_session (lines 67 to 69) and to
runner.run_async (lines 91 to 92). -/
structure CallPlumbing where
  createAppName : String
  createUserId : String
  createSessionId : String
  runUserId : String
  runSessionId : String
  runNewMessage : ADKContent
deriving DecidableEq, Repr

/-- Embeds lines 59 to 92 of call_llm up to the streaming loop: resolve the
session id, pass it with the user id to create_session, and pass the same
pair with the new message to run_async. -/
def call_llm_plumbing (messages : List ThreadMessage) (user_id : String)
    (session_id : Option String) : CallPlumbing :=
  let sid := resolve_session_id session_id user_id
  { createAppName := "slack_ai_agent"
    createUserId := user_id
    createSessionId := sid
    runUserId := user_id
    runSessionId := sid
    runNewMessage := new_message messages }

/-- Failure modes of session_service.create_session as seen by call_llm. -/
inductive SessionError where
  | alreadyExists
  | connectionFailure
deriving DecidableEq, Repr

/-- Embeds the try block of lines 66 to 72: the result of the create_session
call is wrapped in try and except Exception followed by pass, so every
failure is swallowed and the function continues normally. -/
def ensure_session (createResult : Except SessionError Unit) :
    Except SessionError Unit :=
  match createResult with
  | Except.ok _ => Except.ok ()
  | Except.error _ => Except.ok ()

/-- Scenario event: author A with content text partial. -/
def evAuthorAPartial : RawEvent :=
  { author := some "A"
    content := some { parts := [{ text := some "partial" }] }
    functionCalls := []
    actions := none }

/-- Scenario event: a bare transfer_to_agent B action. -/
def evTransferB : RawEvent :=
  { author := none
    content := none
    functionCalls := []
    actions := some { transfer_to_agent := some "B" } }

/-- Scenario event: author B with content text more. -/
def evAuthorBMore : RawEvent :=
  { author := some "B"
    content := some { parts := [{ text := some " more" }] }
    functionCalls := []
    actions := none }

/-- Scenario event: author MathAgent, no content. -/
def evMathIdle : RawEvent :=
  { author := some "MathAgent"
    content := none
    functionCalls := []
    actions := none }

/-- Scenario event: author MathAgent calling the calculate tool. -/
def evMathCall : RawEvent :=
  { author := some "MathAgent"
    content := none
    functionCalls := [{ name := "calculate" }]
    actions := none }

/-- Scenario event: author MathAgent with content text Result: 4. -/
def evMathResult : RawEvent :=
  { author := some "MathAgent"
    content := some { parts := [{ text := some "Result: 4" }] }
    functionCalls := []
    actions := none }

/-- Scenario event: author user carrying only content. -/
def evUserContent : RawEvent :=
  { author := some "user"
    content := some { parts := [{ text := some "hello" }] }
    functionCalls := []
    actions := none }

/-- Scenario event: author user carrying a function call. -/
def evUserCall : RawEvent :=
  { author := some "user"
    content := none
    functionCalls := [{ name := "get_current_time" }]
    actions := none }

/-! ### Helper lemmas -/

/-- The outputs of one loop iteration decompose as the four rule outputs in
rule order. -/
theorem processEvent_out (st : TState) (e : RawEvent) :
    (processEvent st e).2
      = rule1Out st e ++ rule2Out st e ++ rule3Out e ++ rule4Out e := by
  obtain ⟨a, c, f, acts⟩ := e
  simp only [processEvent, rule1Out, rule2Out, rule3Out, rule4Out]
  cases a <;> cases c <;> cases acts <;>
    simp only [] <;>
    (repeat' split) <;> simp

/-- The current agent after one iteration is the rule 1 update. -/
theorem processEvent_agent (st : TState) (e : RawEvent) :
    (processEvent st e).1.currentAgent = rule1Agent st e := by
  obtain ⟨a, c, f, acts⟩ := e
  simp only [processEvent, rule1Agent]
  cases a <;> cases c <;>
    simp only [] <;>
    (repeat' split) <;> simp_all

/-- partOutputs is empty exactly when no part has truthy text. -/
theorem partOutputs_isEmpty (ps : List EventPart) :
    (partOutputs ps).isEmpty = !(ps.any partHasText) := by
  induction ps with
  | nil => rfl
  | cons p ps ih =>
    cases hp : p.text with
    | none =>
      simp [partOutputs, partHasText, optTruthy, hp, List.filterMap_cons] at ih ⊢
      exact ih
    | some t =>
      by_cases ht : t = "" <;>
        simp [partOutputs, partHasText, optTruthy, hp, ht,
          List.filterMap_cons] at ih ⊢
      exact ih

/-- The content-started flag after one iteration: the old flag, or rule 4
emitted at least one content chunk. -/
theorem processEvent_flag (st : TState) (e : RawEvent) :
    (processEvent st e).1.hasStartedStreamingContent
      = (st.hasStartedStreamingContent || !(rule4Out e).isEmpty) := by
  obtain ⟨a, c, f, acts⟩ := e
  simp only [processEvent, rule4Out]
  cases c with
  | none => simp
  | some cc =>
    simp only []
    split <;> simp [partOutputs_isEmpty]

/-- Once the content-started flag is true, rule 1 emits nothing. -/
theorem rule1Out_of_flag (st : TState) (e : RawEvent)
    (h : st.hasStartedStreamingContent = true) : rule1Out st e = [] := by
  simp only [rule1Out]
  cases e.author <;> simp [h]

/-- Once the content-started flag is true, rule 2 emits nothing. -/
theorem rule2Out_of_flag (st : TState) (e : RawEvent)
    (h : st.hasStartedStreamingContent = true) : rule2Out st e = [] := by
  simp [rule2Out, h]

/-- Every rule 1 output is a status event. -/
theorem rule1Out_status (st : TState) (e : RawEvent) :
    ∀ o ∈ rule1Out st e, isContentOut o = false := by
  simp only [rule1Out]
  cases e.author <;> (repeat' split) <;> simp [isContentOut]

/-- Every rule 2 output is a status event. -/
theorem rule2Out_status (st : TState) (e : RawEvent) :
    ∀ o ∈ rule2Out st e, isContentOut o = false := by
  simp only [rule2Out]
  split <;> simp [isContentOut]

/-- Every rule 3 output is a status event. -/
theorem rule3Out_status (e : RawEvent) :
    ∀ o ∈ rule3Out e, isContentOut o = false := by
  simp only [rule3Out]
  (repeat' split) <;> simp [isContentOut]

/-- okTrace distributes over append, threading the flag through the left
part. -/
theorem okTrace_append (a : List (Origin × OutputEvent)) :
    ∀ (b : Bool) (l : List (Origin × OutputEvent)),
      okTrace b (a ++ l)
        ↔ okTrace b a ∧ okTrace (b || a.any (fun t => isContentOut t.2)) l := by
  induction a with
  | nil => intro b l; simp [okTrace]
  | cons t ts ih =>
    intro b l
    simp [okTrace, ih, Bool.or_assoc, and_assoc]

/-- A list all of whose elements avoid rules 1 and 2 is an okTrace for any
flag. -/
theorem okTrace_of_all (l : List (Origin × OutputEvent))
    (h : ∀ t ∈ l, notRule12 t) : ∀ b, okTrace b l := by
  induction l with
  | nil => intro b; trivial
  | cons t ts ih =>
    intro b
    refine ⟨fun _ => h t (List.mem_cons_self t ts), ?_⟩
    exact ih (fun u hu => h u (List.mem_cons_of_mem t hu)) _

/-- okTrace is antitone in the flag: a trace that is ok under a stronger
flag is ok under a weaker one. -/
theorem okTrace_anti (l : List (Origin × OutputEvent)) :
    ∀ (b₁ b₂ : Bool), (b₁ = true → b₂ = true) → okTrace b₂ l → okTrace b₁ l := by
  induction l with
  | nil => intro b₁ b₂ _ _; trivial
  | cons t ts ih =>
    intro b₁ b₂ hb h
    refine ⟨fun h1 => h.1 (hb h1), ?_⟩
    refine ih _ _ ?_ h.2
    intro h1
    rcases Bool.or_eq_true_iff.mp h1 with h1 | h1
    · simp [hb h1]
    · simp [h1]

/-- An okTrace under flag true contains no rule 1 or rule 2 outputs. -/
theorem okTrace_all_of_true (l : List (Origin × OutputEvent)) :
    okTrace true l → ∀ t ∈ l, notRule12 t := by
  induction l with
  | nil => intro _ t ht; cases ht
  | cons u us ih =>
    intro h t ht
    rcases List.mem_cons.mp ht with rfl | ht
    · exact h.1 rfl
    · exact ih (by simpa using h.2) t ht

/-- A list of status outputs is an okTrace under flag false. -/
theorem okTrace_status_false (l : List (Origin × OutputEvent))
    (h : ∀ t ∈ l, isContentOut t.2 = false) : okTrace false l := by
  induction l with
  | nil => trivial
  | cons t ts ih =>
    refine ⟨by simp, ?_⟩
    rw [h t (List.mem_cons_self t ts)]
    exact ih (fun u hu => h u (List.mem_cons_of_mem t hu))

/-- A list of status outputs has no content output. -/
theorem any_content_false (l : List (Origin × OutputEvent))
    (h : ∀ t ∈ l, isContentOut t.2 = false) :
    l.any (fun t => isContentOut t.2) = false := by
  simp only [List.any_eq_false]
  intro t ht
  simp [h t ht]

/-- Tagging a list of outputs with a fixed rule tag and then erasing the
tags is the identity. -/
theorem map_snd_tag (tag : Origin) (l : List OutputEvent) :
    (l.map (fun o => (tag, o))).map Prod.snd = l := by
  simp [List.map_map, Function.comp]

/-- Status-only output lists stay status-only after tagging. -/
theorem tagged_status (tag : Origin) (l : List OutputEvent)
    (h : ∀ o ∈ l, isContentOut o = false) :
    ∀ t ∈ l.map (fun o => (tag, o)), isContentOut t.2 = false := by
  intro t ht
  rcases List.mem_map.mp ht with ⟨o, ho, rfl⟩
  exact h o ho

/-- Outputs tagged with the hand-off or content rule avoid rules 1 and 2. -/
theorem tagged_not12 (tag : Origin) (l : List OutputEvent)
    (h1 : tag ≠ Origin.agentSwitch) (h2 : tag ≠ Origin.toolCall) :
    ∀ t ∈ l.map (fun o => (tag, o)), notRule12 t := by
  intro t ht
  rcases List.mem_map.mp ht with ⟨o, _, rfl⟩
  exact ⟨h1, h2⟩

/-- Erasing the rule tags of one iteration recovers the processEvent
outputs. -/
theorem taggedOut_erase (st : TState) (e : RawEvent) :
    (taggedOut st e).map Prod.snd = (processEvent st e).2 := by
  simp [taggedOut, processEvent_out, map_snd_tag]

/-- Erasing the rule tags of the tagged run recovers the translation run. -/
theorem runTaggedFrom_erase (events : List RawEvent) :
    ∀ st, (runTaggedFrom st events).map Prod.snd = runTranslate st events := by
  induction events with
  | nil => intro st; rfl
  | cons e es ih =>
    intro st
    simp [runTaggedFrom, runTranslate, taggedOut_erase, ih]

/-- If one iteration emits a content output, rule 4 emitted it. -/
theorem taggedOut_any_content (st : TState) (e : RawEvent)
    (h : (taggedOut st e).any (fun t => isContentOut t.2) = true) :
    ¬ rule4Out e = [] := by
  intro h4
  rw [taggedOut, h4] at h
  simp only [List.map_nil, List.append_nil, List.any_append,
    Bool.or_eq_true] at h
  rcases h with (h | h) | h
  · rw [List.any_eq_true] at h
    rcases h with ⟨t, ht, hc⟩
    rw [tagged_status _ _ (rule1Out_status st e) t ht] at hc
    cases hc
  · rw [List.any_eq_true] at h
    rcases h with ⟨t, ht, hc⟩
    rw [tagged_status _ _ (rule2Out_status st e) t ht] at hc
    cases hc
  · rw [List.any_eq_true] at h
    rcases h with ⟨t, ht, hc⟩
    rw [tagged_status _ _ (rule3Out_status e) t ht] at hc
    cases hc

/-- One iteration of the tagged loop is an okTrace starting from its state
flag. -/
theorem okTrace_taggedOut (st : TState) (e : RawEvent) :
    okTrace st.hasStartedStreamingContent (taggedOut st e) := by
  cases hf : st.hasStartedStreamingContent with
  | true =>
    rw [taggedOut, rule1Out_of_flag st e hf, rule2Out_of_flag st e hf]
    simp only [List.map_nil, List.nil_append]
    refine okTrace_of_all _ ?_ _
    intro t ht
    rcases List.mem_append.mp ht with ht | ht
    · exact tagged_not12 _ _ (by simp) (by simp) t ht
    · exact tagged_not12 _ _ (by simp) (by simp) t ht
  | false =>
    rw [taggedOut]
    rw [okTrace_append, okTrace_append, okTrace_append]
    have s1 := tagged_status Origin.agentSwitch _ (rule1Out_status st e)
    have s2 := tagged_status Origin.toolCall _ (rule2Out_status st e)
    have s3 := tagged_status Origin.handOff _ (rule3Out_status e)
    simp only [List.any_append, any_content_false _ s1, any_content_false _ s2,
      any_content_false _ s3, Bool.or_self, Bool.false_or, Bool.or_false]
    refine ⟨⟨⟨okTrace_status_false _ s1, okTrace_status_false _ s2⟩,
      okTrace_status_false _ s3⟩, ?_⟩
    exact okTrace_of_all _ (tagged_not12 _ _ (by simp) (by simp)) _

/-- The whole tagged run is an okTrace starting from the initial flag. -/
theorem okTrace_runTaggedFrom (events : List RawEvent) :
    ∀ st, okTrace st.hasStartedStreamingContent (runTaggedFrom st events) := by
  induction events with
  | nil => intro st; trivial
  | cons e es ih =>
    intro st
    rw [runTaggedFrom, okTrace_append]
    refine ⟨okTrace_taggedOut st e, ?_⟩
    refine okTrace_anti _ _ _ ?_ (ih (processEvent st e).1)
    intro h
    rw [processEvent_flag]
    rcases Bool.or_eq_true_iff.mp h with h | h
    · simp [h]
    · have h4 := taggedOut_any_content st e h
      simp [List.isEmpty_iff, h4]

/-- In an okTrace, every element after a content output avoids rules 1
and 2. -/
theorem okTrace_split (l l₁ l₂ l₃ : List (Origin × OutputEvent))
    (x y : Origin × OutputEvent)
    (hok : okTrace false l) (hsplit : l = l₁ ++ x :: (l₂ ++ y :: l₃))
    (hx : isContentOut x.2 = true) : notRule12 y := by
  subst hsplit
  rw [okTrace_append] at hok
  have h2 := hok.2.2
  rw [hx] at h2
  simp only [Bool.or_true] at h2
  have h3 := okTrace_all_of_true _ h2
  exact h3 y (List.mem_append.mpr (Or.inr (List.mem_cons_self y l₃)))

/-! ### Claims -/

/-- C1: once the content-started flag of call_llm becomes true it never
reverts to false for the rest of the turn, and no status output originating
from rule 1 (agent switch) or rule 2 (tool call) is ever emitted after the
first content output of the turn; erasing the rule tags of the tagged run
recovers the call_llm output stream. -/
theorem c1_contentStarted_invariant :
    (∀ (st : TState) (e : RawEvent),
        st.hasStartedStreamingContent = true →
        (processEvent st e).1.hasStartedStreamingContent = true)
    ∧ (∀ (events : List RawEvent) (l₁ l₂ l₃ : List (Origin × OutputEvent))
        (x y : Origin × OutputEvent),
        call_llm_tagged events = l₁ ++ x :: (l₂ ++ y :: l₃) →
        isContentOut x.2 = true →
        y.1 ≠ Origin.agentSwitch ∧ y.1 ≠ Origin.toolCall)
    ∧ (∀ events, (call_llm_tagged events).map Prod.snd = call_llm_outputs events) := by
  refine ⟨?_, ?_, ?_⟩
  · intro st e h
    rw [processEvent_flag, h]
    rfl
  · intro events l₁ l₂ l₃ x y hsplit hx
    exact okTrace_split _ l₁ l₂ l₃ x y
      (okTrace_runTaggedFrom events initState) hsplit hx
  · intro events
    exact runTaggedFrom_erase events initState

/-- Witness for C1 at a concrete stream: a started flag stays started across
the transfer event, and the hand-off status that follows the first content
chunk of the stream author A then transfer B is not a rule 1 or rule 2
status. -/
theorem c1_contentStarted_invariant_witness :
    (processEvent { currentAgent := none, hasStartedStreamingContent := true }
        evTransferB).1.hasStartedStreamingContent = true
    ∧ ((Origin.handOff, OutputEvent.status "Consulting B...") :
        Origin × OutputEvent).1 ≠ Origin.agentSwitch :=
  ⟨c1_contentStarted_invariant.1 _ evTransferB rfl,
    (c1_contentStarted_invariant.2.1 [evAuthorAPartial, evTransferB]
      [(Origin.agentSwitch, OutputEvent.status "A is working...")] [] []
      (Origin.contentRule, OutputEvent.content "partial")
      (Origin.handOff, OutputEvent.status "Consulting B...")
      (by decide) (by decide)).1⟩

/-- C2 counterexample: on the raw stream author A with content partial, then
transfer to B, then author B with more content, call_llm emits a leading
agent-switch status for A, so the output is not the three-event sequence the
claim states. -/
theorem c2_counterexample :
    call_llm_outputs [evAuthorAPartial, evTransferB, evAuthorBMore]
      = [OutputEvent.status "A is working...", OutputEvent.content "partial",
         OutputEvent.status "Consulting B...", OutputEvent.content " more"]
    ∧ call_llm_outputs [evAuthorAPartial, evTransferB, evAuthorBMore]
      ≠ [OutputEvent.content "partial", OutputEvent.status "Consulting B...",
         OutputEvent.content " more"] :=
  ⟨by decide, by decide⟩

/-- C2 amended: every raw event with a truthy transfer-to-agent action makes
call_llm emit the consulting status regardless of the content-started flag,
and the scenario stream yields the agent-switch status for A, the first
content chunk, the consulting status, and the second content chunk, in that
order. -/
theorem c2_handoff_always_shown :
    (∀ (st : TState) (e : RawEvent) (acts : EventActions) (t : String),
        e.actions = some acts → acts.transfer_to_agent = some t → t ≠ "" →
        OutputEvent.status ("Consulting " ++ t ++ "...") ∈ (processEvent st e).2)
    ∧ call_llm_outputs [evAuthorAPartial, evTransferB, evAuthorBMore]
      = [OutputEvent.status "A is working...", OutputEvent.content "partial",
         OutputEvent.status "Consulting B...", OutputEvent.content " more"] := by
  constructor
  · intro st e acts t ha ht htne
    have h3 : rule3Out e = [OutputEvent.status ("Consulting " ++ t ++ "...")] := by
      simp [rule3Out, ha, ht, htne]
    simp [processEvent_out, h3]
  · decide

/-- Witness for C2 amended: the consulting status is emitted from a state
whose content-started flag is already true. -/
theorem c2_handoff_always_shown_witness :
    OutputEvent.status ("Consulting " ++ "B" ++ "...") ∈
      (processEvent { currentAgent := some "A", hasStartedStreamingContent := true }
        evTransferB).2 :=
  c2_handoff_always_shown.1 _ evTransferB { transfer_to_agent := some "B" } "B"
    rfl rfl (by decide)

/-- C3: the translation run emits the outputs of an earlier raw event before
every output of a later raw event, and within one raw event the outputs
appear in rule-priority order: agent-switch status, tool-call statuses,
hand-off status, content chunks. -/
theorem c3_output_order :
    (∀ st, runTranslate st [] = [])
    ∧ (∀ (st : TState) (e : RawEvent) (es : List RawEvent),
        runTranslate st (e :: es)
          = (rule1Out st e ++ rule2Out st e ++ rule3Out e ++ rule4Out e)
            ++ runTranslate (processEvent st e).1 es) := by
  refine ⟨fun st => rfl, fun st e es => ?_⟩
  rw [runTranslate, processEvent_out]

/-- C4 counterexample: a session-creation failure that is not a duplicate
session, here a connection failure, is also absorbed by the bare except
block and never reaches the caller, refuting the claim that only the
already-exists failure is absorbed. -/
theorem c4_counterexample :
    ensure_session (Except.error SessionError.connectionFailure)
      = Except.ok () := rfl

/-- C4 amended: every session-creation outcome, success, already-exists
failure, or any other failure, is silently absorbed by the try block of
call_llm and the turn proceeds; nothing propagates to the caller. -/
theorem c4_all_failures_absorbed :
    ∀ r : Except SessionError Unit, ensure_session r = Except.ok () := by
  intro r
  cases r <;> rfl

/-- C5: for a raw event whose author is truthy, not the user sentinel, and
different from the current agent, call_llm updates the current agent
unconditionally and emits the working status exactly when the
content-started flag is still false. -/
theorem c5_agent_switch :
    ∀ (st : TState) (e : RawEvent) (a : String),
      e.author = some a → a ≠ "" → a ≠ "user" → some a ≠ st.currentAgent →
      (processEvent st e).1.currentAgent = some a
      ∧ rule1Out st e
          = (if st.hasStartedStreamingContent = false then
              [OutputEvent.status (a ++ " is working...")]
            else [])
      ∧ (processEvent st e).2
          = rule1Out st e ++ rule2Out st e ++ rule3Out e ++ rule4Out e := by
  intro st e a ha h1 h2 h3
  refine ⟨?_, ?_, processEvent_out st e⟩
  · simp [processEvent_agent, rule1Agent, ha, h1, h2, h3]
  · simp [rule1Out, ha, h1, h2, h3]

/-- Witness for C5: the current agent is updated to B even though the
content-started flag is true and no status is emitted. -/
theorem c5_agent_switch_witness :
    (processEvent { currentAgent := some "X", hasStartedStreamingContent := true }
        evAuthorBMore).1.currentAgent = some "B" :=
  (c5_agent_switch _ evAuthorBMore "B" rfl (by decide) (by decide) (by decide)).1

/-- C6: while the content-started flag is false, call_llm emits one tool
status per function call in call order, with the readable name obtained by
replacing underscores with spaces and title-casing; once the flag is true no
tool status is emitted; the calculate tool reads Calculate, and scenario A
yields the working status, the tool status, and the content chunk. -/
theorem c6_tool_statuses :
    ∀ (st : TState) (e : RawEvent),
      (st.hasStartedStreamingContent = false →
        rule2Out st e
          = e.functionCalls.map
              (fun fc => OutputEvent.status ("Using " ++ readableName fc.name ++ "...")))
      ∧ (st.hasStartedStreamingContent = true → rule2Out st e = [])
      ∧ (processEvent st e).2
          = rule1Out st e ++ rule2Out st e ++ rule3Out e ++ rule4Out e
      ∧ readableName "calculate" = "Calculate"
      ∧ call_llm_outputs [evMathIdle, evMathCall, evMathResult]
          = [OutputEvent.status "MathAgent is working...",
             OutputEvent.status "Using Calculate...",
             OutputEvent.content "Result: 4"] := by
  intro st e
  refine ⟨?_, rule2Out_of_flag st e, processEvent_out st e, by decide, by decide⟩
  intro hf
  by_cases h : e.functionCalls = [] <;> simp [rule2Out, hf, h]

/-- Witness for C6: the calculate call yields exactly the Using Calculate
status from the initial state. -/
theorem c6_tool_statuses_witness :
    rule2Out initState evMathCall
      = [OutputEvent.status ("Using " ++ readableName "calculate" ++ "...")] :=
  (c6_tool_statuses initState evMathCall).1 rfl

/-- C7: a raw event with non-empty content parts and a non-user author makes
call_llm emit one content chunk per truthy text part in part order after the
status outputs, and the content-started flag becomes true exactly when some
part has truthy text; a user-authored event carrying only content produces
no output at all. -/
theorem c7_content_extraction :
    ∀ (st : TState) (e : RawEvent) (c : EventContent),
      (e.content = some c → c.parts ≠ [] → e.author ≠ some "user" →
        rule4Out e = partOutputs c.parts
        ∧ (processEvent st e).1.hasStartedStreamingContent
            = (st.hasStartedStreamingContent || c.parts.any partHasText)
        ∧ (processEvent st e).2
            = rule1Out st e ++ rule2Out st e ++ rule3Out e ++ partOutputs c.parts)
      ∧ (e.author = some "user" → e.functionCalls = [] → e.actions = none →
        (processEvent st e).2 = []) := by
  intro st e c
  constructor
  · intro hc hp hu
    have h4 : rule4Out e = partOutputs c.parts := by
      simp [rule4Out, hc, hp, hu]
    refine ⟨h4, ?_, ?_⟩
    · rw [processEvent_flag, h4, partOutputs_isEmpty]
      simp
    · rw [processEvent_out, h4]
  · intro hu hf ha
    have h1 : rule1Out st e = [] := by simp [rule1Out, hu]
    have h2 : rule2Out st e = [] := by simp [rule2Out, hf]
    have h3 : rule3Out e = [] := by simp [rule3Out, ha]
    have h4 : rule4Out e = [] := by
      cases hc2 : e.content <;> simp [rule4Out, hc2, hu]
    simp [processEvent_out, h1, h2, h3, h4]

/-- Witness for C7: the author A content event emits its chunk, and a
user-authored content-only event emits nothing. -/
theorem c7_content_extraction_witness :
    rule4Out evAuthorAPartial = partOutputs [{ text := some "partial" }]
    ∧ (processEvent initState evUserContent).2 = [] :=
  ⟨((c7_content_extraction initState evAuthorAPartial
      { parts := [{ text := some "partial" }] }).1 rfl (by decide) (by decide)).1,
    (c7_content_extraction initState evUserContent { parts := [] }).2 rfl rfl rfl⟩

/-- C8: call_llm forwards exactly the content of the last thread message to
the reasoning engine as the new user message, and an empty history yields a
single synthetic user message with empty text. -/
theorem c8_last_message_forwarded :
    (∀ (msgs : List ThreadMessage) (u : String) (sid : Option String)
        (m : ThreadMessage),
      msgs.getLast? = some m →
      (call_llm_plumbing msgs u sid).runNewMessage
        = { role := "user", parts := [m.content] })
    ∧ (∀ (u : String) (sid : Option String),
      (call_llm_plumbing [] u sid).runNewMessage
        = { role := "user", parts := [""] }) := by
  constructor
  · intro msgs u sid m hm
    simp [call_llm_plumbing, new_message, last_message, hm]
  · intro u sid
    simp [call_llm_plumbing, new_message, last_message]

/-- Witness for C8: a two-message history forwards the content of its final
message. -/
theorem c8_last_message_forwarded_witness :
    (call_llm_plumbing
        [{ role := "assistant", content := "hi" },
         { role := "user", content := "what" }] "U1" none).runNewMessage
      = { role := "user", parts := ["what"] } :=
  c8_last_message_forwarded.1 _ "U1" none
    { role := "user", content := "what" } (by decide)

/-- C9: when no session id is supplied, call_llm derives the id session_
followed by the user id and passes that same id to both the session-creation
call and the engine turn. -/
theorem c9_default_session_id :
    ∀ (u : String) (msgs : List ThreadMessage),
      (call_llm_plumbing msgs u none).createSessionId = "session_" ++ u
      ∧ (call_llm_plumbing msgs u none).runSessionId = "session_" ++ u
      ∧ (call_llm_plumbing msgs u none).createSessionId
          = (call_llm_plumbing msgs u none).runSessionId
      ∧ resolve_session_id none u = "session_" ++ u := by
  intro u msgs
  exact ⟨rfl, rfl, rfl, rfl⟩

/-- C10: the tool-call rule never inspects the author: a user-authored event
carrying function calls still yields the tool statuses while the
content-started flag is false, followed only by a possible hand-off status. -/
theorem c10_tool_rule_ignores_author :
    ∀ (st : TState) (e : RawEvent),
      e.author = some "user" → e.functionCalls ≠ [] →
      st.hasStartedStreamingContent = false →
      (processEvent st e).2
        = e.functionCalls.map
            (fun fc => OutputEvent.status ("Using " ++ readableName fc.name ++ "..."))
          ++ rule3Out e := by
  intro st e hu hf hflag
  have h1 : rule1Out st e = [] := by simp [rule1Out, hu]
  have h2 : rule2Out st e
      = e.functionCalls.map
          (fun fc => OutputEvent.status ("Using " ++ readableName fc.name ++ "...")) := by
    simp [rule2Out, hf, hflag]
  have h4 : rule4Out e = [] := by
    cases hc : e.content <;> simp [rule4Out, hc, hu]
  simp [processEvent_out, h1, h2, h4]

/-- Witness for C10: a user-authored event calling get_current_time yields
the Using Get Current Time status. -/
theorem c10_tool_rule_ignores_author_witness :
    (processEvent initState evUserCall).2
      = [OutputEvent.status ("Using " ++ readableName "get_current_time" ++ "...")]
        ++ rule3Out evUserCall :=
  c10_tool_rule_ignores_author initState evUserCall rfl (by decide) rfl

end LlmCaller
